import Mathlib

/-!
Verification of the neofs-testlib core against its specification.

The development shallowly embeds the two source modules:

* src/reporter/allure_reporter.py  (class AllureReporter)
* src/shell/local_shell.py         (class LocalShell)

Pure helpers of the Python standard library and of the allure package that
the source calls (textwrap.shorten, os.path.splitext, str.lower, str.split,
allure.attachment_type) are embedded as executable Lean functions that follow
the reference implementations.  Interaction with the operating system
(process spawning, exit codes, captured output) is modelled by an explicit
environment value passed to the execution functions, and calls to the
Reporter are modelled as an emitted event list.
-/

namespace AllureReporter

/-- Model of Python str.lower applied character-wise.  Follows the ASCII
mapping of Char.toLower (codepoints 65..90 shifted by 32); lowering of
non-ASCII letters is not exercised by the source data (file extensions). -/
def pyLower (s : String) : String :=
  String.mk (s.data.map Char.toLower)

/-- Model of the allure.attachment_type enum (allure_commons.types.AttachmentType,
an external dependency of the source).  Each member carries a MIME type and a
file extension written without a leading dot; TXT is the plain-text member the
source uses as default. -/
inductive AttachmentType where
  | TXT
  | CSV
  | TSV
  | URI_LIST
  | HTML
  | XML
  | JSON
  | YAML
  | PCAP
  | PNG
  | JPG
  | SVG
  | GIF
  | BMP
  | TIFF
  | MP4
  | OGG
  | WEBM
  | PDF
deriving DecidableEq, Repr

/-- File extension (without dot) carried by each allure attachment type. -/
def AttachmentType.extension : AttachmentType → String
  | .TXT => "txt"
  | .CSV => "csv"
  | .TSV => "tsv"
  | .URI_LIST => "uri"
  | .HTML => "html"
  | .XML => "xml"
  | .JSON => "json"
  | .YAML => "yaml"
  | .PCAP => "pcap"
  | .PNG => "png"
  | .JPG => "jpg"
  | .SVG => "svg"
  | .GIF => "gif"
  | .BMP => "bmp"
  | .TIFF => "tiff"
  | .MP4 => "mp4"
  | .OGG => "ogg"
  | .WEBM => "webm"
  | .PDF => "pdf"

/-- MIME type carried by each allure attachment type. -/
def AttachmentType.mimeType : AttachmentType → String
  | .TXT => "text/plain"
  | .CSV => "text/csv"
  | .TSV => "text/tab-separated-values"
  | .URI_LIST => "text/uri-list"
  | .HTML => "text/html"
  | .XML => "application/xml"
  | .JSON => "application/json"
  | .YAML => "application/yaml"
  | .PCAP => "application/vnd.tcpdump.pcap"
  | .PNG => "image/png"
  | .JPG => "image/jpg"
  | .SVG => "image/svg-xml"
  | .GIF => "image/gif"
  | .BMP => "image/bmp"
  | .TIFF => "image/tiff"
  | .MP4 => "video/mp4"
  | .OGG => "video/ogg"
  | .WEBM => "video/webm"
  | .PDF => "application/pdf"

/-- Iteration order of the allure.attachment_type enum members. -/
def attachmentTypeList : List AttachmentType :=
  [.TXT, .CSV, .TSV, .URI_LIST, .HTML, .XML, .JSON, .YAML, .PCAP,
   .PNG, .JPG, .SVG, .GIF, .BMP, .TIFF, .MP4, .OGG, .WEBM, .PDF]

/-- Embedding of AllureReporter._resolve_attachment_type: lowercase the given
extension, return the first enum member whose extension equals it, defaulting
to the TXT member (next with a default over a generator expression). -/
def resolveAttachmentType (extension : String) : AttachmentType :=
  let extension := pyLower extension
  (attachmentTypeList.find? (fun t => t.extension == extension)).getD .TXT

/-- Index of the last occurrence of a character in a character list
(Python str.rfind restricted to single-character needles), none if absent. -/
def lastIdxOf (l : List Char) (c : Char) : Option Nat :=
  match l.reverse.findIdx? (fun x => x == c) with
  | none => none
  | some i => some (l.length - 1 - i)

/-- Embedding of os.path.splitext (posixpath, via genericpath._splitext with
sep "/" and extsep "."): split at the last dot provided it lies after the last
path separator and at least one non-dot character of the base name precedes it
(so names consisting only of leading dots keep an empty extension). -/
def splitext (p : String) : String × String :=
  let chars := p.data
  match lastIdxOf chars '.' with
  | none => (p, "")
  | some d =>
      let start := match lastIdxOf chars '/' with
        | none => 0
        | some si => si + 1
      let sepBeforeDot := match lastIdxOf chars '/' with
        | none => true
        | some si => decide (si < d)
      if sepBeforeDot = true ∧
          ((chars.drop start).take (d - start)).any (fun c => c != '.') = true then
        (String.mk (chars.take d), String.mk (chars.drop d))
      else (p, "")

/-- Arguments of the allure.attach call performed by AllureReporter.attach:
the raw body, the attachment name and the resolved attachment type. -/
structure AllureAttachCall where
  body : String
  name : String
  atype : AttachmentType
deriving DecidableEq, Repr

/-- Embedding of AllureReporter.attach: split the file name into stem and
extension, resolve the attachment type from the extension, and forward the
unmodified body together with the stem as attachment name. -/
def attach (body : String) (file_name : String) : AllureAttachCall :=
  let sp := splitext file_name
  { body := body, name := sp.1, atype := resolveAttachmentType sp.2 }

end AllureReporter


namespace AllureReporter

/-- Model of Python str.split with no separator: the maximal runs of
non-whitespace characters, with leading and trailing whitespace dropped.
The accumulator holds the current run in reverse. -/
def pySplitAux : List Char → List Char → List String
  | [], acc => if acc.isEmpty then [] else [String.mk acc.reverse]
  | c :: cs, acc =>
      if c.isWhitespace then
        if acc.isEmpty then pySplitAux cs []
        else String.mk acc.reverse :: pySplitAux cs []
      else pySplitAux cs (c :: acc)

/-- Model of Python str.split with no separator. -/
def pySplit (s : String) : List String :=
  pySplitAux s.data []

/-- The chunk sequence textwrap builds for the whitespace-collapsed text:
words separated by single-space chunks.  Hyphen-based sub-word chunking
(break_on_hyphens) is not modelled; it only moves break positions inside
words and cannot affect the length bound or the placeholder suffix. -/
def shortenChunks (s : String) : List String :=
  List.intersperse " " (pySplit s)

/-- Concatenation of a list of strings (Python str.join with empty glue). -/
def strJoin : List String → String
  | [] => ""
  | a :: l => a ++ strJoin l

/-- The whitespace-collapsed form of a text: its words joined by single
spaces.  This is the value textwrap.shorten compares against the width. -/
def wsCollapse (s : String) : String :=
  strJoin (shortenChunks s)

/-- Total character length of a chunk list. -/
def chunkLen (l : List String) : Nat :=
  (l.map String.length).sum

/-- Greedy chunk placement of TextWrapper._wrap_chunks for a single line of
width 70: consume chunks while the accumulated length stays within 70,
returning the line and the remaining chunks. -/
def greedyChunks : Nat → List String → List String × List String
  | _, [] => ([], [])
  | curLen, c :: cs =>
      if curLen + c.length ≤ 70 then
        let r := greedyChunks (curLen + c.length) cs
        (c :: r.1, r.2)
      else ([], c :: cs)

/-- The current line TextWrapper._wrap_chunks holds when max_lines is
exhausted: the greedy line, extended with the head slice of an over-wide
chunk (_handle_long_word with break_long_words), with a trailing whitespace
chunk dropped (drop_whitespace). -/
def truncLine (text : String) : List String :=
  let g := greedyChunks 0 (shortenChunks text)
  let lineA := match g.2 with
    | c :: _ => if 70 < c.length then g.1 ++ [c.take (70 - chunkLen g.1)] else g.1
    | [] => g.1
  match lineA.getLast? with
  | some last => if last.trim = "" then lineA.dropLast else lineA
  | none => lineA

/-- Truncation loop of TextWrapper._wrap_chunks under max_lines: drop chunks
from the end of the (reversed) line until the last kept chunk is non-blank
and the line plus the three-character placeholder fits in the width; none
when every chunk gets dropped. -/
def dropUntilFits : List String → Option (List String)
  | [] => none
  | c :: cs =>
      if c.trim ≠ "" ∧ chunkLen (c :: cs) + 3 ≤ 70 then some (c :: cs)
      else dropUntilFits cs

/-- Embedding of textwrap.shorten(text, width=70, placeholder="...") as used
by AllureReporter.step: collapse whitespace; if the collapsed text fits in 70
characters it is returned unchanged, otherwise the greedy single line is
truncated until the placeholder fits and the placeholder is appended (just
the stripped placeholder when nothing fits). -/
def shorten70 (text : String) : String :=
  if (wsCollapse text).length ≤ 70 then wsCollapse text
  else
    match dropUntilFits (truncLine text).reverse with
    | some revLine => strJoin revLine.reverse ++ "..."
    | none => "..."

/-- Embedding of AllureReporter.step: the name forwarded to allure.step is
the shortened step name. -/
def step (name : String) : String :=
  shorten70 name

/-- Whether a string ends with the three-dot ellipsis placeholder. -/
def endsWithDots (s : String) : Bool :=
  s.data.reverse.take 3 == ['.', '.', '.']

end AllureReporter


namespace LocalShell

/-- Modelled from the spec: class InteractiveInput of shell/interfaces.py,
which is not under src/.  Spec section 3: prompt pattern (string or pattern)
plus the literal string to send when the pattern matches. -/
structure InteractiveInput where
  prompt_pattern : String
  input : String
deriving DecidableEq, Repr

/-- Modelled from the spec: class CommandOptions of shell/interfaces.py,
which is not under src/.  Spec section 3: interactive_inputs (empty means
non-interactive), check (raise on non-zero exit), optional timeout; default
values are no inputs, check true, no timeout. -/
structure CommandOptions where
  interactive_inputs : List InteractiveInput := []
  check : Bool := true
  timeout : Option Nat := none
deriving DecidableEq, Repr

/-- The default-constructed CommandOptions() value. -/
def defaultOptions : CommandOptions := {}

/-- Modelled from the spec: class CommandResult of shell/interfaces.py,
which is not under src/.  Spec section 3: stdout, stderr, and a return code
that may be absent if the process never produced one. -/
structure CommandResult where
  stdout : String
  stderr : String
  return_code : Option Int
deriving DecidableEq, Repr

/-- Errors surfacing from LocalShell.exec: a RuntimeError raised by the
source with a message, or an exception of the environment re-raised as is
(for example a process timeout propagating out of the bare raise). -/
inductive ExecError where
  | runtimeError (message : String)
  | propagated
deriving DecidableEq, Repr

/-- Calls made to the Reporter during one execution. -/
inductive RepEvent where
  | step (name : String)
  | attach (body : String) (file_name : String)
deriving DecidableEq, Repr

/-- Behaviour of the operating system for the non-interactive
subprocess.run invocation of one command: the spawn itself fails with an
OSError carrying strerror, or the process completes with merged output and
an exit code, or the run aborts with a timeout-class exception. -/
inductive SpawnOutcome where
  | osError (strerror : String)
  | completed (output : String) (returncode : Int)
  | timedOut
deriving DecidableEq, Repr

/-- Whether the non-interactive spawn itself failed at the OS level. -/
def SpawnOutcome.isOsError : SpawnOutcome → Bool
  | .osError _ => true
  | _ => false

/-- Behaviour of a successfully spawned pexpect session: the index of the
first expect call that fails with a pexpect exception (none when every
prompt matches); whether reading the session result itself fails, that is,
the expect of pexpect.EOF on the still-alive hung session raises TIMEOUT
inside _get_pexpect_process_result; and, when the capture succeeds, the
exit status obtained after close (absent when the process was terminated by
a signal) and the contents of the capture buffer when it is read. -/
structure InteractiveProc where
  promptFailure : Option Nat
  captureFails : Bool
  exitstatus : Option Int
  output : String
deriving DecidableEq, Repr

/-- Behaviour of the operating system for the pexpect.spawn invocation of
one command: spawning fails with a pexpect.ExceptionPexpect (for example a
missing binary), fails with an OSError carrying strerror, or yields a
session. -/
inductive InteractiveSpawn where
  | pexpectFail
  | osFail (strerror : String)
  | spawned (proc : InteractiveProc)
deriving DecidableEq, Repr

/-- Whether the interactive spawn itself failed. -/
def InteractiveSpawn.isSpawnFail : InteractiveSpawn → Bool
  | .pexpectFail => true
  | .osFail _ => true
  | .spawned _ => false

/-- Whether a spawned session loses its result capture: the wait for
end-of-stream in _get_pexpect_process_result raises on the hung session, so
no CommandResult can be produced.  Spawn failures never lose the capture,
because with no session the helper falls back to getstatusoutput, which
cannot raise. -/
def InteractiveSpawn.captureLost : InteractiveSpawn → Bool
  | .spawned proc => proc.captureFails
  | _ => false

/-- Environment of one exec call: what subprocess.run would do, what
pexpect.spawn would do, and the (status, output) pair a fallback
subprocess.getstatusoutput invocation of the command would return. -/
structure World where
  spawnNI : SpawnOutcome
  spawnI : InteractiveSpawn
  fallback : Int × String
deriving DecidableEq, Repr

/-- Python string formatting of an optional integer field: None prints as
the word None, an integer prints as its decimal form. -/
def pyShowOptInt : Option Int → String
  | none => "None"
  | some n => toString n

/-- Embedding of LocalShell._get_failing_command_result: re-run the command
through subprocess.getstatusoutput and wrap status and output in a
CommandResult with empty stderr. -/
def getFailingCommandResult (fallback : Int × String) : CommandResult :=
  { stdout := fallback.2, stderr := "", return_code := some fallback.1 }

/-- Embedding of LocalShell._get_pexpect_process_result: with no session the
fallback capture is used, which cannot fail; with a session the helper first
waits for end-of-stream on a still-alive process, and that expect of
pexpect.EOF can itself raise TIMEOUT on a hung session (modelled as none),
otherwise the session is closed and the capture buffer is read, giving
stdout, empty stderr and the exit status. -/
def getPexpectProcessResult (proc? : Option InteractiveProc) (fallback : Int × String) :
    Option CommandResult :=
  match proc? with
  | none => some (getFailingCommandResult fallback)
  | some proc =>
      if proc.captureFails then none
      else some { stdout := proc.output, stderr := "", return_code := proc.exitstatus }

/-- Body of the command attachment built by LocalShell._report_command_result.
The trailing wall-clock line (start, end and elapsed time) is outside the
model and omitted. -/
def commandAttachment (command : String) (result : CommandResult) : String :=
  "COMMAND: " ++ command ++ "\nRETCODE: " ++ pyShowOptInt result.return_code ++
  "\n\nSTDOUT:\n" ++ result.stdout ++ "\nSTDERR:\n" ++ result.stderr ++ "\n"

/-- Embedding of the reporting part of LocalShell._report_command_result:
with no result only a log line is written and the Reporter is not called;
with a result exactly one step and, inside it, one attach with the command
attachment body are emitted. -/
def reportCommandResult (command : String) (result : Option CommandResult) :
    List RepEvent :=
  match result with
  | none => []
  | some r => [RepEvent.step ("COMMAND: " ++ command),
               RepEvent.attach (commandAttachment command r) "Command execution.txt"]

/-- Whether the expect loop over the interactive inputs hits the failing
expect call of the session (the recorded failure index falls inside the
input list). -/
def promptFails (options : CommandOptions) (proc : InteractiveProc) : Bool :=
  match proc.promptFailure with
  | none => false
  | some i => decide (i < options.interactive_inputs.length)

/-- The RuntimeError message format shared by the handlers of
LocalShell._exec_interactive and by its non-zero-exit check. -/
def interactiveMessage (command : String) (returnCode : Option Int) (outputText : String) :
    String :=
  "Command: " ++ command ++ "\nreturn code: " ++ pyShowOptInt returnCode ++
  "\nOutput: " ++ outputText

/-- Embedding of LocalShell._exec_interactive.  A spawn failure is handled by
the pexpect or OSError handler: the result is recovered through
_get_pexpect_process_result with no session, which is the fallback capture
and cannot fail; then the RuntimeError is raised when check is set, otherwise
the result is logged and returned.  With a session, the result capture can
itself raise: either the capture in the try body raises and the
ExceptionPexpect handler re-runs it on the same hung session where it raises
again, or a failing expect call reaches the handler whose recovery capture
raises; in both shapes the new TIMEOUT propagates out of the handler, result
stays None and the finally block reports nothing.  When the capture
succeeds, a failing expect call is handled with that result (raise when
check is set, log and return otherwise), and on a clean prompt run a
non-zero (or absent) return code raises when check is set; the RuntimeError
of that check branch is re-raised by the generic handler after recomputing
the same result from the now-closed session.  Every branch with a result
reports it from the finally block. -/
def execInteractive (command : String) (options : CommandOptions) (w : World) :
    Except ExecError CommandResult × List RepEvent :=
  match w.spawnI with
  | .pexpectFail =>
      let result := getFailingCommandResult w.fallback
      let message := interactiveMessage command result.return_code result.stdout
      if options.check then
        (.error (.runtimeError message), reportCommandResult command (some result))
      else
        (.ok result, reportCommandResult command (some result))
  | .osFail strerror =>
      let result := getFailingCommandResult w.fallback
      let message := interactiveMessage command result.return_code strerror
      if options.check then
        (.error (.runtimeError message), reportCommandResult command (some result))
      else
        (.ok result, reportCommandResult command (some result))
  | .spawned proc =>
      match getPexpectProcessResult (some proc) w.fallback with
      | none =>
          (.error .propagated, reportCommandResult command none)
      | some result =>
          if promptFails options proc then
            let message := interactiveMessage command result.return_code result.stdout
            if options.check then
              (.error (.runtimeError message), reportCommandResult command (some result))
            else
              (.ok result, reportCommandResult command (some result))
          else
            if options.check = true ∧ result.return_code ≠ some 0 then
              (.error (.runtimeError (interactiveMessage command result.return_code result.stdout)),
               reportCommandResult command (some result))
            else
              (.ok result, reportCommandResult command (some result))

/-- Embedding of LocalShell._exec_non_interactive.  An OSError of the spawn
raises at once with no result, so the finally block reports nothing.  A
completed process with non-zero exit and check set triggers the
CalledProcessError handler: the fallback result is captured and reported and
the RuntimeError with command, return code and captured output is raised.
Otherwise the completed process yields the returned result.  A timeout-class
exception captures the fallback result and re-raises the original
exception. -/
def execNonInteractive (command : String) (options : CommandOptions) (w : World) :
    Except ExecError CommandResult × List RepEvent :=
  match w.spawnNI with
  | .osError strerror =>
      (.error (.runtimeError ("Command: " ++ command ++ "\nOutput: " ++ strerror)),
       reportCommandResult command none)
  | .completed output returncode =>
      if options.check = true ∧ returncode ≠ 0 then
        let result := getFailingCommandResult w.fallback
        (.error (.runtimeError ("Command: " ++ command ++ "\nError:\nreturn code: " ++
           toString returncode ++ "\noutput: " ++ output)),
         reportCommandResult command (some result))
      else
        let result : CommandResult :=
          { stdout := output, stderr := "", return_code := some returncode }
        (.ok result, reportCommandResult command (some result))
  | .timedOut =>
      let result := getFailingCommandResult w.fallback
      (.error .propagated, reportCommandResult command (some result))

/-- Embedding of LocalShell.exec: replace an omitted options argument by the
default-constructed CommandOptions, then dispatch on whether the interactive
input list is non-empty. -/
def exec (command : String) (options? : Option CommandOptions) (w : World) :
    Except ExecError CommandResult × List RepEvent :=
  let options := options?.getD defaultOptions
  if options.interactive_inputs.isEmpty then execNonInteractive command options w
  else execInteractive command options w

end LocalShell

/-- Containment of one string inside another: the character data of the
haystack splits as a prefix, the needle and a suffix. -/
def strContains (needle hay : String) : Prop :=
  ∃ l r, hay.data = l ++ needle.data ++ r

section StringLemmas

/-- Appending strings concatenates their character data. -/
theorem strData_append (a b : String) : (a ++ b).data = a.data ++ b.data :=
  String.data_append a b

/-- Two String.mk values append to the String.mk of the concatenation. -/
theorem strMk_append (a b : List Char) :
    String.mk a ++ String.mk b = String.mk (a ++ b) := rfl

/-- Appending the empty string on the right is the identity. -/
theorem strAppend_empty (a : String) : a ++ "" = a := by
  cases a with
  | mk d => rw [show ("" : String) = String.mk [] from rfl, strMk_append, List.append_nil]

end StringLemmas

section CharLemmas

/-- Conversion to Nat inverts Char.ofNat on valid codepoints. -/
theorem charToNat_ofNat_valid (n : Nat) (h : n.isValidChar) :
    (Char.ofNat n).toNat = n := by
  simp [Char.ofNat, h]
  rfl

/-- The ASCII lowercase mapping is idempotent. -/
theorem charToLower_idem (c : Char) :
    Char.toLower (Char.toLower c) = Char.toLower c := by
  unfold Char.toLower
  by_cases h : c.toNat ≥ 65 ∧ c.toNat ≤ 90
  · rw [if_pos h]
    have hv : (c.toNat + 32).isValidChar := Or.inl (by omega)
    have ht : (Char.ofNat (c.toNat + 32)).toNat = c.toNat + 32 :=
      charToNat_ofNat_valid _ hv
    rw [if_neg (by omega)]
  · rw [if_neg h, if_neg h]

/-- Python str.lower, modelled character-wise, is idempotent. -/
theorem pyLower_idem (s : String) :
    AllureReporter.pyLower (AllureReporter.pyLower s) = AllureReporter.pyLower s := by
  unfold AllureReporter.pyLower
  cases s with
  | mk d =>
      simp only [List.map_map]
      congr 1
      exact List.map_congr_left (fun c _ => charToLower_idem c)

end CharLemmas

section ShortenLemmas

open AllureReporter

/-- Length of a concatenated string list is the total chunk length. -/
theorem strJoin_length (l : List String) : (strJoin l).length = chunkLen l := by
  induction l with
  | nil => rfl
  | cons a t ih =>
      simp only [strJoin, chunkLen, List.map_cons, List.sum_cons, String.length_append]
      rw [ih]
      rfl

/-- Soundness of the truncation loop: a kept line fits together with the
three-character placeholder. -/
theorem dropUntilFits_sound :
    ∀ (l r : List String), dropUntilFits l = some r → chunkLen r + 3 ≤ 70 := by
  intro l
  induction l with
  | nil => intro r h; simp [dropUntilFits] at h
  | cons c cs ih =>
      intro r h
      unfold dropUntilFits at h
      by_cases hc : c.trim ≠ "" ∧ chunkLen (c :: cs) + 3 ≤ 70
      · rw [if_pos hc] at h
        cases h
        exact hc.2
      · rw [if_neg hc] at h
        exact ih r h

/-- Appending the placeholder makes endsWithDots true. -/
theorem endsWithDots_append_dots (s : String) :
    endsWithDots (s ++ "...") = true := by
  unfold endsWithDots
  rw [strData_append]
  rw [show ("..." : String).data = ['.', '.', '.'] from rfl]
  rw [List.reverse_append]
  simp

end ShortenLemmas

section StrContainsLemmas

/-- String append is associative. -/
theorem strAppend_assoc (a b c : String) : a ++ b ++ c = a ++ (b ++ c) := by
  cases a with
  | mk x =>
    cases b with
    | mk y =>
      cases c with
      | mk z => simp [strMk_append, List.append_assoc]

/-- A string occurs in the concatenation that sandwiches it. -/
theorem strContains_middle (a b c : String) : strContains b (a ++ (b ++ c)) :=
  ⟨a.data, c.data, by simp [strData_append, List.append_assoc]⟩

/-- A string occurs in any concatenation it starts. -/
theorem strContains_left (b c : String) : strContains b (b ++ c) :=
  ⟨[], c.data, by simp [strData_append]⟩

/-- Containment is preserved by prepending. -/
theorem strContains_append_left (a : String) {needle hay : String}
    (h : strContains needle hay) : strContains needle (a ++ hay) := by
  obtain ⟨l, r, hd⟩ := h
  exact ⟨a.data ++ l, r, by rw [strData_append, hd]; simp [List.append_assoc]⟩

end StrContainsLemmas

section SplitextLemmas

/-- The two components of splitext concatenate back to the argument. -/
theorem splitext_concat (p : String) :
    (AllureReporter.splitext p).1 ++ (AllureReporter.splitext p).2 = p := by
  cases p with
  | mk chars =>
    unfold AllureReporter.splitext
    cases h : AllureReporter.lastIdxOf chars '.' with
    | none => simp only [h]; exact strAppend_empty _
    | some d =>
      simp only [h]
      split
      · exact (strMk_append _ _).trans (congrArg String.mk (List.take_append_drop _ _))
      · exact strAppend_empty _

end SplitextLemmas

/-- C1: the specification claims that attaching out.json, out.png and
out.unknownext resolves the json, image and default plain-text categories.
Evaluating the embedded source shows all three resolve the default TXT
member, because os.path.splitext hands over the extension with its leading
dot while the allure extensions carry no dot, so the search of
_resolve_attachment_type can never find a match; the last two conjuncts show
the search does work as the docstring intends once the dot is absent. -/
theorem c1_dotted_extension_always_txt :
    (AllureReporter.attach "B" "out.json").atype = .TXT ∧
    (AllureReporter.attach "B" "out.png").atype = .TXT ∧
    (AllureReporter.attach "B" "out.unknownext").atype = .TXT ∧
    AllureReporter.resolveAttachmentType "json" = .JSON ∧
    AllureReporter.resolveAttachmentType "png" = .PNG := by
  refine ⟨by decide, by decide, by decide, by decide, by decide⟩

/-- C9: category resolution is case-insensitive: resolving an extension and
resolving its lowercase form yield the same attachment type, because the
source lowercases the extension before the enum search and lowering is
idempotent. -/
theorem c9_resolve_case_insensitive (e : String) :
    AllureReporter.resolveAttachmentType e =
      AllureReporter.resolveAttachmentType (AllureReporter.pyLower e) := by
  unfold AllureReporter.resolveAttachmentType
  rw [pyLower_idem]

/-- C8 counterexample: for the file name a.json.json the artifact is stored
under the name a.json, and the extension .json does occur inside that stored
name, refuting the clause that the extension does not appear in the stored
name. -/
theorem c8_cex :
    (AllureReporter.attach "B" "a.json.json").name = "a.json" ∧
    (AllureReporter.splitext "a.json.json").2 = ".json" ∧
    strContains ".json" "a.json" := by
  refine ⟨by decide, by decide, ⟨['a'], [], by decide⟩⟩

/-- C8 (amended): for every attach call the artifact is stored under the
os.path.splitext stem of the given file name, and the file name is exactly
that stem followed by the split extension (the final extension is removed
from the end; a copy of the extension may still occur inside the stem, as in
repeated extensions). -/
theorem c8_attach_name_is_stem (body file_name : String) :
    (AllureReporter.attach body file_name).name = (AllureReporter.splitext file_name).1 ∧
    (AllureReporter.splitext file_name).1 ++ (AllureReporter.splitext file_name).2 =
      file_name := by
  exact ⟨rfl, splitext_concat file_name⟩

/-- C7 counterexample: a step name of 74 characters whose surplus consists of
internal spaces is forwarded as the five-character collapsed form with no
ellipsis marker, refuting the claim that every name longer than 70
characters is forwarded truncated with a trailing ellipsis:
textwrap.shorten collapses whitespace before comparing against the width. -/
theorem c7_cex :
    70 < ("ab" ++ String.mk (List.replicate 70 ' ') ++ "cd").length ∧
    AllureReporter.step ("ab" ++ String.mk (List.replicate 70 ' ') ++ "cd") = "ab cd" ∧
    AllureReporter.endsWithDots "ab cd" = false := by
  refine ⟨by decide, by decide, by decide⟩

/-- C7 (amended): for every step name whose whitespace-collapsed form (words
joined by single spaces) is longer than 70 characters, the name forwarded to
the backend has length at most 70 and ends with the ellipsis marker; and for
every attach call the artifact body is forwarded to the backend
unmodified. -/
theorem c7_step_shortening (name body file_name : String) :
    (70 < (AllureReporter.wsCollapse name).length →
      (AllureReporter.step name).length ≤ 70 ∧
      AllureReporter.endsWithDots (AllureReporter.step name) = true) ∧
    (AllureReporter.attach body file_name).body = body := by
  constructor
  · intro h
    unfold AllureReporter.step AllureReporter.shorten70
    rw [if_neg (by omega)]
    cases hd : AllureReporter.dropUntilFits (AllureReporter.truncLine name).reverse with
    | none => simp only [hd]; exact ⟨by decide, by decide⟩
    | some revLine =>
        simp only [hd]
        have hb := dropUntilFits_sound _ _ hd
        refine ⟨?_, endsWithDots_append_dots _⟩
        rw [String.length_append, strJoin_length]
        have hrev : AllureReporter.chunkLen revLine.reverse = AllureReporter.chunkLen revLine := by
          unfold AllureReporter.chunkLen
          rw [List.map_reverse, List.sum_reverse]
        have h3 : ("..." : String).length = 3 := by decide
        omega
  · rfl

/-- Witness for C7 (amended) at a concrete input: a single 80-character word
collapses to itself, exceeds the width and is forwarded as a name of at most
70 characters ending with the ellipsis marker. -/
theorem c7_witness :
    70 < (AllureReporter.wsCollapse (String.mk (List.replicate 80 'a'))).length ∧
    ((AllureReporter.step (String.mk (List.replicate 80 'a'))).length ≤ 70 ∧
      AllureReporter.endsWithDots (AllureReporter.step (String.mk (List.replicate 80 'a'))) = true) :=
  ⟨by decide, (c7_step_shortening (String.mk (List.replicate 80 'a')) "b" "f").1 (by decide)⟩

/-- C10: calling exec with the options argument omitted behaves identically
to calling it with a freshly default-constructed CommandOptions: the source
replaces a missing options value by CommandOptions(), so the two calls are
definitionally the same computation on every environment. -/
theorem c10_default_options (command : String) (w : LocalShell.World) :
    LocalShell.exec command none w =
      LocalShell.exec command (some LocalShell.defaultOptions) w := rfl

/-- C6: the execution strategy is chosen by a pure predicate on the options:
with non-empty interactive_inputs exec runs the interactive strategy and its
result does not depend on the non-interactive part of the environment; with
empty interactive_inputs exec runs the non-interactive strategy and its
result does not depend on the interactive part of the environment. -/
theorem c6_dispatch (command : String) (options : LocalShell.CommandOptions)
    (w : LocalShell.World) (x : LocalShell.SpawnOutcome) (y : LocalShell.InteractiveSpawn) :
    (options.interactive_inputs ≠ [] →
      LocalShell.exec command (some options) w =
        LocalShell.execInteractive command options w ∧
      LocalShell.exec command (some options) { w with spawnNI := x } =
        LocalShell.exec command (some options) w) ∧
    (options.interactive_inputs = [] →
      LocalShell.exec command (some options) w =
        LocalShell.execNonInteractive command options w ∧
      LocalShell.exec command (some options) { w with spawnI := y } =
        LocalShell.exec command (some options) w) := by
  have hcase : options.interactive_inputs = [] ∨ options.interactive_inputs ≠ [] :=
    Decidable.em _
  constructor
  · intro hne
    have hni : options.interactive_inputs.isEmpty = false := by
      cases hx : options.interactive_inputs with
      | nil => exact absurd hx hne
      | cons a t => rfl
    constructor
    · simp [LocalShell.exec, hni]
    · cases w with
      | mk a b c => simp [LocalShell.exec, hni, LocalShell.execInteractive]
  · intro he
    have hni : options.interactive_inputs.isEmpty = true := by rw [he]; rfl
    constructor
    · simp [LocalShell.exec, hni]
    · cases w with
      | mk a b c => simp [LocalShell.exec, hni, LocalShell.execNonInteractive]

/-- C2 (amended): when the OS-level spawn fails, the non-interactive
strategy always raises the RuntimeError regardless of check; the interactive
strategy raises only when check is true and otherwise logs and returns the
best-effort CommandResult obtained from the fallback capture. -/
theorem c2_spawn_failure_behaviour (command : String)
    (options : LocalShell.CommandOptions) (w : LocalShell.World) :
    (options.interactive_inputs = [] → ∀ s, w.spawnNI = .osError s →
      (LocalShell.exec command (some options) w).1 =
        .error (.runtimeError ("Command: " ++ command ++ "\nOutput: " ++ s))) ∧
    (options.interactive_inputs ≠ [] → w.spawnI.isSpawnFail = true →
      (options.check = true →
        ∃ m, (LocalShell.exec command (some options) w).1 =
          .error (.runtimeError m)) ∧
      (options.check = false →
        (LocalShell.exec command (some options) w).1 =
          .ok (LocalShell.getFailingCommandResult w.fallback))) := by
  constructor
  · intro h s hs
    have hni : options.interactive_inputs.isEmpty = true := by rw [h]; rfl
    simp [LocalShell.exec, hni, LocalShell.execNonInteractive, hs]
  · intro hne hsf
    have hni : options.interactive_inputs.isEmpty = false := by
      cases hx : options.interactive_inputs with
      | nil => exact absurd hx hne
      | cons a t => rfl
    cases hw : w.spawnI with
    | pexpectFail =>
        constructor
        · intro hc
          refine ⟨LocalShell.interactiveMessage command
              (LocalShell.getFailingCommandResult w.fallback).return_code
              (LocalShell.getFailingCommandResult w.fallback).stdout, ?_⟩
          simp [LocalShell.exec, hni, LocalShell.execInteractive, hw, hc]
        · intro hc
          simp [LocalShell.exec, hni, LocalShell.execInteractive, hw, hc]
    | osFail s =>
        constructor
        · intro hc
          refine ⟨LocalShell.interactiveMessage command
              (LocalShell.getFailingCommandResult w.fallback).return_code s, ?_⟩
          simp [LocalShell.exec, hni, LocalShell.execInteractive, hw, hc]
        · intro hc
          simp [LocalShell.exec, hni, LocalShell.execInteractive, hw, hc]
    | spawned proc =>
        rw [hw] at hsf
        exact absurd hsf (by simp [LocalShell.InteractiveSpawn.isSpawnFail])

/-- C4: for every command whose process completes with a non-zero exit code
and check true, exec raises a RuntimeError whose message contains the
command text and the return code, in both the non-interactive and the
interactive strategy. -/
theorem c4_nonzero_check_raises (command output : String) (n : Int)
    (options : LocalShell.CommandOptions) (w : LocalShell.World)
    (proc : LocalShell.InteractiveProc)
    (hn : n ≠ 0) (hc : options.check = true) :
    (options.interactive_inputs = [] → w.spawnNI = .completed output n →
      ∃ m, (LocalShell.exec command (some options) w).1 = .error (.runtimeError m) ∧
        strContains command m ∧ strContains (toString n) m) ∧
    (options.interactive_inputs ≠ [] → w.spawnI = .spawned proc →
      proc.promptFailure = none → proc.captureFails = false → proc.exitstatus = some n →
      ∃ m, (LocalShell.exec command (some options) w).1 = .error (.runtimeError m) ∧
        strContains command m ∧ strContains (toString n) m) := by
  constructor
  · intro h hs
    have hni : options.interactive_inputs.isEmpty = true := by rw [h]; rfl
    refine ⟨"Command: " ++ command ++ "\nError:\nreturn code: " ++ toString n ++
        "\noutput: " ++ output, ?_, ?_, ?_⟩
    · simp [LocalShell.exec, hni, LocalShell.execNonInteractive, hs, hc, hn]
    · simp only [strAppend_assoc]
      exact strContains_middle _ _ _
    · simp only [strAppend_assoc]
      exact strContains_append_left _ (strContains_append_left _
        (strContains_append_left _ (strContains_left _ _)))
  · intro hne hs hp hcf he
    have hni : options.interactive_inputs.isEmpty = false := by
      cases hx : options.interactive_inputs with
      | nil => exact absurd hx hne
      | cons a t => rfl
    have hpf : LocalShell.promptFails options proc = false := by
      simp [LocalShell.promptFails, hp]
    refine ⟨"Command: " ++ command ++ "\nreturn code: " ++ toString n ++
        "\nOutput: " ++ proc.output, ?_, ?_, ?_⟩
    · have hcap : LocalShell.getPexpectProcessResult (some proc) w.fallback =
          some { stdout := proc.output, stderr := "", return_code := some n } := by
        simp [LocalShell.getPexpectProcessResult, hcf, he]
      simp [LocalShell.exec, hni, LocalShell.execInteractive, hs, hcap, hpf, hc, hn,
            LocalShell.interactiveMessage, LocalShell.pyShowOptInt]
    · simp only [strAppend_assoc]
      exact strContains_middle _ _ _
    · simp only [strAppend_assoc]
      exact strContains_append_left _ (strContains_append_left _
        (strContains_append_left _ (strContains_left _ _)))

/-- C5: for every command whose process completes with a non-zero exit code
and check false, exec does not raise and returns a CommandResult whose
return_code is exactly the exit code of the process, in both strategies. -/
theorem c5_nonzero_nocheck_returns (command output : String) (n : Int)
    (options : LocalShell.CommandOptions) (w : LocalShell.World)
    (proc : LocalShell.InteractiveProc)
    (hn : n ≠ 0) (hc : options.check = false) :
    (options.interactive_inputs = [] → w.spawnNI = .completed output n →
      (LocalShell.exec command (some options) w).1 =
        .ok { stdout := output, stderr := "", return_code := some n }) ∧
    (options.interactive_inputs ≠ [] → w.spawnI = .spawned proc →
      proc.promptFailure = none → proc.captureFails = false → proc.exitstatus = some n →
      (LocalShell.exec command (some options) w).1 =
        .ok { stdout := proc.output, stderr := "", return_code := some n }) := by
  constructor
  · intro h hs
    have hni : options.interactive_inputs.isEmpty = true := by rw [h]; rfl
    simp [LocalShell.exec, hni, LocalShell.execNonInteractive, hs, hc]
  · intro hne hs hp hcf he
    have hni : options.interactive_inputs.isEmpty = false := by
      cases hx : options.interactive_inputs with
      | nil => exact absurd hx hne
      | cons a t => rfl
    have hpf : LocalShell.promptFails options proc = false := by
      simp [LocalShell.promptFails, hp]
    have hcap : LocalShell.getPexpectProcessResult (some proc) w.fallback =
        some { stdout := proc.output, stderr := "", return_code := some n } := by
      simp [LocalShell.getPexpectProcessResult, hcf, he]
    simp [LocalShell.exec, hni, LocalShell.execInteractive, hs, hcap, hpf, hc]

/-- C3 counterexample: an interactive execution on a hung process where the
expect call times out and the recovery capture of the exception handler
itself raises TIMEOUT while waiting for end-of-stream: no CommandResult is
produced, the finally block reports nothing, and the exception propagates.
This is a second no-report path besides the non-interactive OS-level spawn
failure that the claim names as the single exception. -/
theorem c3_cex :
    (LocalShell.exec "top"
        (some { interactive_inputs := [{ prompt_pattern := "P", input := "q" }],
                check := true, timeout := some 5 })
        { spawnNI := .completed "" 0,
          spawnI := .spawned { promptFailure := some 0, captureFails := true,
                               exitstatus := none, output := "" },
          fallback := (0, "") }).2 = [] ∧
    (LocalShell.exec "top"
        (some { interactive_inputs := [{ prompt_pattern := "P", input := "q" }],
                check := true, timeout := some 5 })
        { spawnNI := .completed "" 0,
          spawnI := .spawned { promptFailure := some 0, captureFails := true,
                               exitstatus := none, output := "" },
          fallback := (0, "") }).1 = .error .propagated :=
  ⟨rfl, rfl⟩

/-- C3 (amended): every exec call emits exactly one Reporter step and
exactly one Reporter attach, whose attachment body is built from a
CommandResult produced before reporting, except two no-report cases: the
non-interactive OS-level spawn failure, and the interactive execution whose
session result capture itself fails (the wait for end-of-stream raises on
the hung session, from the try body or from inside the exception handlers),
so that no result exists when the finally block runs. -/
theorem c3_reporting_amended (command : String) (options? : Option LocalShell.CommandOptions)
    (w : LocalShell.World) :
    ((options?.getD LocalShell.defaultOptions).interactive_inputs = [] →
      w.spawnNI.isOsError = true → (LocalShell.exec command options? w).2 = []) ∧
    ((options?.getD LocalShell.defaultOptions).interactive_inputs ≠ [] →
      w.spawnI.captureLost = true → (LocalShell.exec command options? w).2 = []) ∧
    ((options?.getD LocalShell.defaultOptions).interactive_inputs ≠ [] ∨
        w.spawnNI.isOsError = false →
      ((options?.getD LocalShell.defaultOptions).interactive_inputs = [] ∨
        w.spawnI.captureLost = false) →
      ∃ r : LocalShell.CommandResult,
        (LocalShell.exec command options? w).2 =
          [LocalShell.RepEvent.step ("COMMAND: " ++ command),
           LocalShell.RepEvent.attach (LocalShell.commandAttachment command r)
             "Command execution.txt"]) := by
  by_cases hF : (options?.getD LocalShell.defaultOptions).interactive_inputs = []
  · have hni : (options?.getD LocalShell.defaultOptions).interactive_inputs.isEmpty = true := by
      rw [hF]; rfl
    cases hw : w.spawnNI with
    | osError s =>
        refine ⟨?_, ?_, ?_⟩
        · intro _ _
          simp [LocalShell.exec, hni, LocalShell.execNonInteractive, hw,
                LocalShell.reportCommandResult]
        · intro hne _
          exact absurd hF hne
        · intro h1 _
          rcases h1 with h1 | h1
          · exact absurd hF h1
          · simp [LocalShell.SpawnOutcome.isOsError] at h1
    | completed out rc =>
        refine ⟨?_, ?_, ?_⟩
        · intro _ hoe
          simp [LocalShell.SpawnOutcome.isOsError] at hoe
        · intro hne _
          exact absurd hF hne
        · intro _ _
          by_cases hck : (options?.getD LocalShell.defaultOptions).check = true ∧ rc ≠ 0
          · refine ⟨LocalShell.getFailingCommandResult w.fallback, ?_⟩
            simp [LocalShell.exec, hni, LocalShell.execNonInteractive, hw, hck,
                  LocalShell.reportCommandResult]
          · refine ⟨{ stdout := out, stderr := "", return_code := some rc }, ?_⟩
            simp [LocalShell.exec, hni, LocalShell.execNonInteractive, hw, hck,
                  LocalShell.reportCommandResult]
    | timedOut =>
        refine ⟨?_, ?_, ?_⟩
        · intro _ hoe
          simp [LocalShell.SpawnOutcome.isOsError] at hoe
        · intro hne _
          exact absurd hF hne
        · intro _ _
          exact ⟨LocalShell.getFailingCommandResult w.fallback, by
            simp [LocalShell.exec, hni, LocalShell.execNonInteractive, hw,
                  LocalShell.reportCommandResult]⟩
  · have hni : (options?.getD LocalShell.defaultOptions).interactive_inputs.isEmpty = false := by
      cases hx : (options?.getD LocalShell.defaultOptions).interactive_inputs with
      | nil => exact absurd hx hF
      | cons a t => rfl
    refine ⟨?_, ?_, ?_⟩
    · intro h
      exact absurd h hF
    · intro _ hcl
      cases hw : w.spawnI with
      | pexpectFail =>
          rw [hw] at hcl
          simp [LocalShell.InteractiveSpawn.captureLost] at hcl
      | osFail s =>
          rw [hw] at hcl
          simp [LocalShell.InteractiveSpawn.captureLost] at hcl
      | spawned proc =>
          rw [hw] at hcl
          have hcf : proc.captureFails = true := by
            simpa [LocalShell.InteractiveSpawn.captureLost] using hcl
          simp [LocalShell.exec, hni, LocalShell.execInteractive, hw,
                LocalShell.getPexpectProcessResult, hcf,
                LocalShell.reportCommandResult]
    · intro _ h2
      rcases h2 with h2 | h2
      · exact absurd h2 hF
      · cases hw : w.spawnI with
        | pexpectFail =>
            refine ⟨LocalShell.getFailingCommandResult w.fallback, ?_⟩
            cases hcc : (options?.getD LocalShell.defaultOptions).check <;>
              simp [LocalShell.exec, hni, LocalShell.execInteractive, hw, hcc,
                    LocalShell.reportCommandResult]
        | osFail s =>
            refine ⟨LocalShell.getFailingCommandResult w.fallback, ?_⟩
            cases hcc : (options?.getD LocalShell.defaultOptions).check <;>
              simp [LocalShell.exec, hni, LocalShell.execInteractive, hw, hcc,
                    LocalShell.reportCommandResult]
        | spawned proc =>
            rw [hw] at h2
            have hcf : proc.captureFails = false := by
              simpa [LocalShell.InteractiveSpawn.captureLost] using h2
            refine ⟨{ stdout := proc.output, stderr := "", return_code := proc.exitstatus }, ?_⟩
            have hcap : LocalShell.getPexpectProcessResult (some proc) w.fallback =
                some { stdout := proc.output, stderr := "", return_code := proc.exitstatus } := by
              simp [LocalShell.getPexpectProcessResult, hcf]
            cases hpp : LocalShell.promptFails (options?.getD LocalShell.defaultOptions) proc
            · by_cases hck : (options?.getD LocalShell.defaultOptions).check = true ∧
                  proc.exitstatus ≠ some 0
              · simp [LocalShell.exec, hni, LocalShell.execInteractive, hw, hcap, hpp, hck,
                      LocalShell.reportCommandResult]
              · simp [LocalShell.exec, hni, LocalShell.execInteractive, hw, hcap, hpp, hck,
                      LocalShell.reportCommandResult]
            · cases hcc : (options?.getD LocalShell.defaultOptions).check <;>
                simp [LocalShell.exec, hni, LocalShell.execInteractive, hw, hcap, hpp, hcc,
                      LocalShell.reportCommandResult]

/-- C2 counterexample: with interactive inputs supplied and check false, a
spawn failure of the interactive strategy (the pexpect exception for a
missing binary) makes exec return the best-effort fallback CommandResult
instead of raising, refuting the claim that spawn failures raise regardless
of check in both strategies. -/
theorem c2_cex :
    (LocalShell.exec "cmd"
        (some { interactive_inputs := [{ prompt_pattern := "P", input := "y" }],
                check := false })
        { spawnNI := .completed "" 0, spawnI := .pexpectFail,
          fallback := (127, "cmd: command not found") }).1 =
      .ok { stdout := "cmd: command not found", stderr := "", return_code := some 127 } := by
  rfl

/-- Witness for C2 (amended) at a concrete input: a non-interactive spawn
failure raises the RuntimeError built from the OSError strerror. -/
theorem c2_witness :
    (LocalShell.exec "c" (some { })
        { spawnNI := .osError "No such file or directory", spawnI := .pexpectFail,
          fallback := (127, "x") }).1 =
      .error (.runtimeError ("Command: " ++ "c" ++ "\nOutput: " ++
        "No such file or directory")) :=
  (c2_spawn_failure_behaviour "c" { }
    { spawnNI := .osError "No such file or directory", spawnI := .pexpectFail,
      fallback := (127, "x") }).1 rfl "No such file or directory" rfl

/-- Witness for C3 at a concrete input: a completed echo command reports one
step and one attach built from a CommandResult. -/
theorem c3_witness :
    ∃ r : LocalShell.CommandResult,
      (LocalShell.exec "echo hello" none
          { spawnNI := .completed "hello\n" 0, spawnI := .pexpectFail,
            fallback := (0, "") }).2 =
        [LocalShell.RepEvent.step ("COMMAND: " ++ "echo hello"),
         LocalShell.RepEvent.attach (LocalShell.commandAttachment "echo hello" r)
           "Command execution.txt"] :=
  (c3_reporting_amended "echo hello" none
    { spawnNI := .completed "hello\n" 0, spawnI := .pexpectFail,
      fallback := (0, "") }).2.2 (Or.inr rfl) (Or.inl rfl)

/-- Witness for C4 at a concrete input: exit code 3 with default options
(check true) raises a message containing the command and the code. -/
theorem c4_witness :
    ∃ m, (LocalShell.exec "exit 3" (some { })
        { spawnNI := .completed "" 3, spawnI := .pexpectFail,
          fallback := (3, "") }).1 = .error (.runtimeError m) ∧
      strContains "exit 3" m ∧ strContains (toString (3 : Int)) m :=
  (c4_nonzero_check_raises "exit 3" "" 3 { }
    { spawnNI := .completed "" 3, spawnI := .pexpectFail, fallback := (3, "") }
    { promptFailure := none, captureFails := false, exitstatus := none, output := "" }
    (by decide) rfl).1 rfl rfl

/-- Witness for C5 at a concrete input: exit code 3 with check false returns
the CommandResult carrying return code 3. -/
theorem c5_witness :
    (LocalShell.exec "exit 3" (some { check := false })
        { spawnNI := .completed "" 3, spawnI := .pexpectFail,
          fallback := (3, "") }).1 =
      .ok { stdout := "", stderr := "", return_code := some 3 } :=
  (c5_nonzero_nocheck_returns "exit 3" "" 3 { check := false }
    { spawnNI := .completed "" 3, spawnI := .pexpectFail, fallback := (3, "") }
    { promptFailure := none, captureFails := false, exitstatus := none, output := "" }
    (by decide) rfl).1 rfl rfl

/-- Witness for C6 at a concrete input: with no interactive inputs exec runs
the non-interactive strategy. -/
theorem c6_witness :
    LocalShell.exec "ls" (some { })
        { spawnNI := .completed "file\n" 0, spawnI := .pexpectFail,
          fallback := (0, "") } =
      LocalShell.execNonInteractive "ls" { }
        { spawnNI := .completed "file\n" 0, spawnI := .pexpectFail,
          fallback := (0, "") } :=
  ((c6_dispatch "ls" { }
      { spawnNI := .completed "file\n" 0, spawnI := .pexpectFail,
        fallback := (0, "") } .timedOut .pexpectFail).2 rfl).1
